import Mathlib

/-!
Verification development for the SnapTrade admin-panel repository.

The development shallowly embeds the four core mechanisms of the repo:
the port allocator (src/findFreePorts.js), the development-process
supervisor and the port-reclamation utility (the start-dev script),
the holdings response normalizer and ticker extractor (frontend
holdings helpers and AdminPanel), and the backend's in-memory user
secret store (src/backend/server.js).  JavaScript values are embedded
as an inductive `JSVal`; stateful or effectful code is embedded as
explicit state passing and event traces.
-/

namespace SnapTrade

/-! Model of JavaScript values.  `undefined` is JavaScript `undefined`;
objects are association lists in insertion order. -/

inductive JSVal where
  | undefined
  | null
  | bool (b : Bool)
  | num (n : Int)
  | str (s : String)
  | arr (elems : List JSVal)
  | obj (fields : List (String × JSVal))
deriving Repr

/-- Truthiness of a JavaScript value (`if (x)` semantics): `undefined`,
`null`, `false`, `0` and the empty string are falsy; arrays and objects
are always truthy. -/
def truthy : JSVal → Bool
  | .undefined => false
  | .null => false
  | .bool b => b
  | .num n => n != 0
  | .str s => s != ""
  | .arr _ => true
  | .obj _ => true

/-- Property access `v.k` (also models optional chaining `v?.k`, since
every guarded access in the embedded code is on a non-null base or uses
`?.`): on an object, the stored field or `undefined`; on any other value
(number, string, array, ...), `undefined`. -/
def getField : JSVal → String → JSVal
  | .obj fields, k =>
    match fields.lookup k with
    | some v => v
    | none => .undefined
  | _, _ => .undefined

/-- JavaScript `a || b`: the first operand if truthy, else the second. -/
def jsOr (a b : JSVal) : JSVal := if truthy a then a else b

/-- JavaScript `Array.isArray`. -/
def isArray : JSVal → Bool
  | .arr _ => true
  | _ => false

/-- JavaScript `String.prototype.trim()`: drop leading and trailing
whitespace characters. -/
def jsTrim (s : String) : String :=
  String.mk (((s.toList.dropWhile Char.isWhitespace).reverse.dropWhile
    Char.isWhitespace).reverse)

/-- First truthy value in an ordered candidate list, with a default when
every candidate is falsy.  This is the meaning of a JavaScript
`c1 || c2 || ... || dflt` chain. -/
def firstTruthyOr : List JSVal → JSVal → JSVal
  | [], dflt => dflt
  | v :: vs, dflt => if truthy v then v else firstTruthyOr vs dflt

/-! Response normalizer, from `normalizeHoldingsResponse` in the
frontend holdings helper module. -/

/-- Result record of `normalizeHoldingsResponse`.  The `raw` field is
`undefined` exactly when the source returned the two-field object
`{ accounts: [], positions: [] }` without a `raw` property (reading
`result.raw` in JavaScript then yields `undefined`). -/
structure NormalizedHoldingsResult where
  accounts : JSVal
  positions : JSVal
  raw : JSVal
deriving Repr

/-- Embedding of `normalizeHoldingsResponse(data)`:
falsy input returns `{ accounts: [], positions: [] }`; otherwise
`accounts = data.accounts || data.brokerageAccounts || []` and
`positions` is the `||` chain over `data?.data?.positions`,
`data?.data?.holdings`, `data?.data?.results`, `data?.data`,
`data.holdings`, `data.positions`, `data.accountHoldings`,
`data.results`, `data`, `[]`, replaced by `[]` when not an array. -/
def normalizeHoldingsResponse (data : JSVal) : NormalizedHoldingsResult :=
  if truthy data then
    let accounts :=
      jsOr (getField data "accounts")
        (jsOr (getField data "brokerageAccounts") (.arr []))
    let d := getField data "data"
    let positions :=
      jsOr (getField d "positions")
        (jsOr (getField d "holdings")
          (jsOr (getField d "results")
            (jsOr d
              (jsOr (getField data "holdings")
                (jsOr (getField data "positions")
                  (jsOr (getField data "accountHoldings")
                    (jsOr (getField data "results")
                      (jsOr data (.arr [])))))))))
    { accounts := accounts
      positions := if isArray positions then positions else .arr []
      raw := data }
  else
    { accounts := .arr [], positions := .arr [], raw := .undefined }

/-- Ordered candidate list consulted by the positions resolution of
`normalizeHoldingsResponse`: the variants nested under the generic
`data` wrapper first, then the flat fields, then the payload itself. -/
def positionsCandidates (data : JSVal) : List JSVal :=
  let d := getField data "data"
  [getField d "positions", getField d "holdings", getField d "results", d,
   getField data "holdings", getField data "positions",
   getField data "accountHoldings", getField data "results", data]

/-! Ticker extraction, from `firstString` and `formatTicker` in
AdminPanel. -/

/-- Secondary nested lookup used by `firstString` when a candidate is a
structured value: `c.symbol || c.ticker || c.code || c.name || c.id`. -/
def nestedSymbolLookup (c : JSVal) : JSVal :=
  jsOr (getField c "symbol")
    (jsOr (getField c "ticker")
      (jsOr (getField c "code")
        (jsOr (getField c "name") (getField c "id"))))

/-- JavaScript `c && typeof c === "object"`: arrays and plain objects
qualify; `null` is excluded by the truthiness guard. -/
def isObjectLike : JSVal → Bool
  | .obj _ => true
  | .arr _ => true
  | _ => false

/-- Embedding of the `firstString(...candidates)` helper: return the
first candidate that is a string with non-empty trim; when a candidate
is a truthy object, try the secondary nested lookup and accept its value
on the same condition; otherwise fall through to the next candidate;
return the empty string when the candidates are exhausted. -/
def firstString : List JSVal → String
  | [] => ""
  | c :: cs =>
    match c with
    | .str s => if jsTrim s ≠ "" then jsTrim s else firstString cs
    | _ =>
      if isObjectLike c then
        match nestedSymbolLookup c with
        | .str s => if jsTrim s ≠ "" then jsTrim s else firstString cs
        | _ => firstString cs
      else firstString cs

/-- Embedding of `formatTicker(position)`: `firstString` over the fixed
precedence list of candidate paths from the source, ending with the
`typeof position?.symbol === "string" ? position.symbol : ""` fallback. -/
def formatTicker (position : JSVal) : String :=
  firstString
    [getField position "ticker",
     getField (getField position "symbol") "symbol",
     getField (getField position "symbol") "ticker",
     getField (getField (getField position "symbol") "symbol") "symbol",
     getField (getField (getField position "symbol") "symbol") "ticker",
     getField (getField position "universalSymbol") "symbol",
     getField (getField position "universalSymbol") "ticker",
     getField (getField position "universal_symbol") "symbol",
     getField (getField position "universal_symbol") "ticker",
     getField (getField position "instrument") "symbol",
     getField (getField position "instrument") "ticker",
     getField (getField position "security") "symbol",
     getField (getField position "security") "ticker",
     getField (getField (getField position "instrument") "universalSymbol") "symbol",
     getField (getField (getField position "instrument") "universal_symbol") "symbol",
     match getField position "symbol" with
     | .str s => .str s
     | _ => .str ""]

/-! Port allocator, from src/findFreePorts.js.  A call is modelled
against a predicate `free : Nat → Bool` giving each port's fixed
free/occupied status for the duration of the call (`isPortFree`). -/

/-- Linear ascending scan: first `p` with `free p` among
`start, start+1, ...`, with `fuel` ports still to try. -/
def scanRangeAux (free : Nat → Bool) : Nat → Nat → Option Nat
  | _start, 0 => none
  | start, Nat.succ fuel =>
    if free start then some start else scanRangeAux free (start + 1) fuel

/-- The `for (let port = start; port <= end; port += 1)` loop of
`findFreePort`: first free port in the closed interval
`[start, stop]`, or `none` (the thrown no-free-port error). -/
def scanRange (free : Nat → Bool) (start stop : Nat) : Option Nat :=
  scanRangeAux free start (stop + 1 - start)

/-- Embedding of `findFreePort({preferred, rangeStart, rangeEnd})`: when
`preferred` is truthy (present and non-zero) and free, return it;
otherwise scan the range (with the source's `?? 3000` / `?? 3999`
defaults); `none` models the thrown no-free-port error. -/
def findFreePort (free : Nat → Bool) (preferred : Option Nat)
    (rangeStart rangeEnd : Option Nat) : Option Nat :=
  let start := rangeStart.getD 3000
  let stop := rangeEnd.getD 3999
  match preferred with
  | some p => if p ≠ 0 ∧ free p = true then some p else scanRange free start stop
  | none => scanRange free start stop

/-- Options object of `findFreePorts`, with the source's destructuring
defaults. -/
structure PortOptions where
  preferredBackendPort : Option Nat := some 3005
  preferredFrontendPort : Option Nat := some 3000
  backendRangeStart : Nat := 3001
  backendRangeEnd : Nat := 3999
  frontendRangeStart : Nat := 3000
  frontendRangeEnd : Nat := 4999
deriving Repr, DecidableEq

/-- Pair of allocated ports returned by `findFreePorts`. -/
structure PortAssignment where
  backendPort : Nat
  frontendPort : Nat
deriving Repr, DecidableEq

/-- Embedding of `findFreePorts(options)`: pick the backend port, pick
the frontend port, and on collision re-scan for the frontend starting
just above the backend port (`Math.max(frontendRangeStart,
backendPort + 1)`), clamped to the original frontend range ceiling. -/
def findFreePorts (free : Nat → Bool) (options : PortOptions) :
    Option PortAssignment :=
  match findFreePort free options.preferredBackendPort
      (some options.backendRangeStart) (some options.backendRangeEnd) with
  | none => none
  | some backendPort =>
    match findFreePort free options.preferredFrontendPort
        (some options.frontendRangeStart) (some options.frontendRangeEnd) with
    | none => none
    | some frontendPort =>
      if frontendPort = backendPort then
        match findFreePort free none
            (some (max options.frontendRangeStart (backendPort + 1)))
            (some options.frontendRangeEnd) with
        | none => none
        | some f => some ⟨backendPort, f⟩
      else some ⟨backendPort, frontendPort⟩

/-! Process supervisor, from the start-dev script (src/unnamed/part_000).
The supervisor's effects are embedded as an event trace; the backend
health probe outcome at attempt `i` is a fixed predicate `health i`
(success of `axios.get(BACKEND_URL + "/api/status")`). -/

/-- Role of a spawned child process. -/
inductive Role where
  | backend
  | frontend
deriving Repr, DecidableEq

/-- Observable supervisor effects, in program order. -/
inductive Event where
  | reclaimPort (p : Nat)
  | spawnChild (r : Role)
  | probe (i : Nat) (ok : Bool)
  | sleep (ms : Nat)
  | logWaiting
  | logFatal
  | killBackendChild
  | terminateTree (r : Role) (graceful : Bool)
  | exitProcess (code : Nat)
deriving Repr, DecidableEq

/-- Loop body of `waitForBackend`: with `fuel` retries left and current
attempt index `i`, probe; on success return `true` at once; on failure
log the waiting notice (first attempt only), sleep 1000 ms, retry. -/
def waitForBackendAux (health : Nat → Bool) : Nat → Nat → List Event × Bool
  | _i, 0 => ([], false)
  | i, Nat.succ fuel =>
    if health i then ([Event.probe i true], true)
    else
      let rest := waitForBackendAux health (i + 1) fuel
      (Event.probe i false ::
        ((if i = 0 then [Event.logWaiting] else []) ++
          Event.sleep 1000 :: rest.1),
       rest.2)

/-- Embedding of `waitForBackend()` with its default `maxRetries = 30`:
the emitted events and the returned readiness flag; on exhaustion the
source logs the fatal "failed to start within 30 seconds" notice and
returns `false`. -/
def waitForBackendTrace (health : Nat → Bool) : List Event × Bool :=
  let r := waitForBackendAux health 0 30
  if r.2 then r else (r.1 ++ [Event.logFatal], false)

/-- Closed form of the trace of `fuel` consecutive failed probes
starting at attempt `i`. -/
def failProbes : Nat → Nat → List Event
  | _i, 0 => []
  | i, Nat.succ fuel =>
    Event.probe i false ::
      ((if i = 0 then [Event.logWaiting] else []) ++
        Event.sleep 1000 :: failProbes (i + 1) fuel)

/-- Embedding of the `startServices` control flow from port cleanup
onward: reclaim both ports, spawn the backend, wait for backend health;
if the backend never became ready, kill the backend child and exit the
whole process with status 1; otherwise spawn the frontend (the trace is
truncated at that point — the run continues into steady state). -/
def startServicesTrace (health : Nat → Bool) (ports : PortAssignment) :
    List Event :=
  Event.reclaimPort ports.backendPort :: Event.reclaimPort ports.frontendPort ::
    Event.spawnChild Role.backend ::
    ((waitForBackendTrace health).1 ++
      (if (waitForBackendTrace health).2 then [Event.spawnChild Role.frontend]
       else [Event.killBackendChild, Event.exitProcess 1]))

/-- Supervisor state visible to `shutdown`: the `shuttingDown` latch and
the two allocated ports.  The latch is written synchronously before the
first `await` of the source's `shutdown`, and the event loop is
single-threaded, so duplicate signal deliveries are serialized calls
against this state. -/
structure SupCtx where
  shuttingDown : Bool
  backendPort : Nat
  frontendPort : Nat
deriving Repr, DecidableEq

/-- Teardown effects of one `shutdown` pass, in source order:
`killChildTree(frontend)`, `killChildTree(backend)` (graceful SIGTERM
off Windows, forced whole-tree `taskkill` on Windows), the fixed 1500 ms
grace wait, `killProcessOnPort` on the backend then frontend port, and
`process.exit(0)`. -/
def teardownEvents (isWindows : Bool) (b f : Nat) : List Event :=
  [Event.terminateTree Role.frontend (!isWindows),
   Event.terminateTree Role.backend (!isWindows),
   Event.sleep 1500, Event.reclaimPort b, Event.reclaimPort f,
   Event.exitProcess 0]

/-- Embedding of one invocation of `shutdown(signal)`: return at once
when the latch is already set, else set the latch and perform the
teardown. -/
def shutdownCall (isWindows : Bool) (st : SupCtx) : SupCtx × List Event :=
  if st.shuttingDown then (st, [])
  else ({ st with shuttingDown := true },
    teardownEvents isWindows st.backendPort st.frontendPort)

/-- Sequence of `n` invocations of `shutdown` (duplicate signal
deliveries), with the concatenated event trace. -/
def runShutdowns (isWindows : Bool) : Nat → SupCtx → SupCtx × List Event
  | 0, st => (st, [])
  | Nat.succ n, st =>
    let r1 := shutdownCall isWindows st
    let r2 := runShutdowns isWindows n r1.1
    (r2.1, r1.2 ++ r2.2)

/-! Port reclamation utility, `killProcessOnPort` from the start-dev
script.  The outcome of the OS lookup command (`lsof -ti tcp:PORT` off
Windows, `netstat -ano` on Windows) is a parameter: either the spawn
failed, or the process finished with an exit code and a list of stdout
chunks. -/

/-- Concatenation of the per-chunk-trimmed stdout accumulation
`pid += data.toString().trim()` of the non-Windows branch. -/
def trimChunks (chunks : List String) : String :=
  String.join (chunks.map jsTrim)

/-- Character-list prefix test (structural helper for substring
matching). -/
def isPrefixChars : List Char → List Char → Bool
  | [], _ => true
  | _ :: _, [] => false
  | a :: as, b :: bs => a == b && isPrefixChars as bs

/-- Substring containment on character lists. -/
def hasSubstrChars (needle : List Char) : List Char → Bool
  | [] => needle.isEmpty
  | c :: rest => isPrefixChars needle (c :: rest) || hasSubstrChars needle rest

/-- JavaScript `hay.includes(needle)`. -/
def strContains (hay needle : String) : Bool :=
  hasSubstrChars needle.toList hay.toList

/-- Match of a pattern followed by one whitespace character at the head
of a character list. -/
def patThenWS : List Char → List Char → Bool
  | [], c :: _ => c.isWhitespace
  | [], [] => false
  | _ :: _, [] => false
  | p :: ps, c :: cs => p == c && patThenWS ps cs

/-- Occurrence of a pattern followed by a whitespace character anywhere
in a character list — the `new RegExp(":" + port + "\\s")` test of the
Windows branch (the pattern has no cased letters, so the `i` flag is
inert). -/
def hasPatWS (pat : List Char) : List Char → Bool
  | [] => false
  | c :: rest => patThenWS pat (c :: rest) || hasPatWS pat rest

/-- Test of one `netstat` output line against `:PORT\s`. -/
def lineMatchesPort (port : Nat) (line : String) : Bool :=
  hasPatWS (String.toList (":" ++ toString port)) line.toList

/-- JavaScript `line.trim().split(/\s+/)`: the non-empty
whitespace-separated words of the line. -/
def lineWords (line : String) : List String :=
  (line.split Char.isWhitespace).filter (fun w => w ≠ "")

/-- Numeric test standing for `!isNaN(pid)` on a `netstat` PID column
entry (PID columns are decimal digit strings). -/
def isNumericStr (s : String) : Bool :=
  s != "" && s.toList.all Char.isDigit

/-- The "Killing process PID on port PORT" cleanup log line. -/
def killLogLine (pid : String) (port : Nat) : String :=
  "Killing process " ++ pid ++ " on port " ++ toString port

/-- Observable outcome of one `killProcessOnPort` call: the cleanup log
lines emitted, the PID argument of each spawned kill command
(`kill -9 ARG` or `taskkill /F /PID ARG`), the settle delay before the
promise resolves, and whether the promise resolved. -/
structure ReclaimOutcome where
  logs : List String
  killArgs : List String
  settleMs : Nat
  resolved : Bool
deriving Repr, DecidableEq

/-- Windows branch loop over `netstat` output lines: on the first line
matching `:PORT\s` and containing `LISTENING` whose last column is a
truthy numeric PID, log, spawn one `taskkill`, settle 1000 ms and
resolve; otherwise keep scanning; resolve with no kill when the lines
are exhausted. -/
def winScan (port : Nat) : List String → ReclaimOutcome
  | [] => ⟨[], [], 0, true⟩
  | line :: rest =>
    if lineMatchesPort port line && strContains line "LISTENING" then
      if (lineWords line).getLastD "" != "" &&
          isNumericStr ((lineWords line).getLastD "") then
        ⟨[killLogLine ((lineWords line).getLastD "") port],
         [(lineWords line).getLastD ""], 1000, true⟩
      else winScan port rest
    else winScan port rest

/-- Outcome of the spawned lookup command observed by
`killProcessOnPort`: either its spawn raised an error event, or it
closed with an exit code after emitting stdout chunks. -/
inductive LookupRun where
  | spawnError
  | finished (exitCode : Int) (chunks : List String)
deriving Repr, DecidableEq

/-- Embedding of `killProcessOnPort(port)`.  On a spawn error the
promise resolves at once with no effect.  On Windows the accumulated
raw output is split on newlines and scanned.  Off Windows (POSIX
branch) the per-chunk-trimmed output is the single `pid` string; when
`lsof` exited 0 and `pid` is non-empty, one `kill -9 pid` is spawned
with the whole string as its one argument, followed by the 1000 ms
settle delay; otherwise the promise resolves at once. -/
def killProcessOnPortRun (isWindows : Bool) (port : Nat) (run : LookupRun) :
    ReclaimOutcome :=
  match run with
  | .spawnError => ⟨[], [], 0, true⟩
  | .finished exitCode chunks =>
    if isWindows then
      winScan port ((String.join chunks).splitOn "\n")
    else
      let pid := trimChunks chunks
      if exitCode = 0 ∧ pid ≠ "" then
        ⟨[killLogLine pid port], [pid], 1000, true⟩
      else ⟨[], [], 0, true⟩

/-! Backend in-memory secret store, from src/backend/server.js: the
module-level `userSecrets` map and the route handlers that touch it. -/

/-- JavaScript `Map.prototype.set`: replace the value of an existing
key in place, else append the new entry. -/
def mapSet : List (String × String) → String → String → List (String × String)
  | [], k, v => [(k, v)]
  | (k1, v1) :: rest, k, v =>
    if k1 = k then (k, v) :: rest else (k1, v1) :: mapSet rest k v

/-- Backend process state relevant to the secret store: the
`userSecrets` map (insertion-ordered association list). -/
structure BackendState where
  userSecrets : List (String × String)
deriving Repr, DecidableEq

/-- Success path of `POST /api/users`: after the upstream registration
returns, `userSecrets.set(userId, response.data.userSecret)`. -/
def registerUserHandler (st : BackendState) (userId userSecret : String) :
    BackendState :=
  { userSecrets := mapSet st.userSecrets userId userSecret }

/-- Embedding of `DELETE /api/users/:userId`: forward the upstream
delete result (success data or error payload) as the response; the
handler never touches `userSecrets` on either path. -/
def deleteUserHandler (st : BackendState) (_userId : String)
    (upstream : Except JSVal JSVal) : BackendState × JSVal :=
  match upstream with
  | Except.ok data => (st, data)
  | Except.error err => (st, err)

/-- The `userSecrets.get(userId) || null` enrichment value: `none`
models `null`/absent (an empty stored secret is falsy and collapses to
`null`). -/
def secretOrNull (st : BackendState) (userId : String) : Option String :=
  match st.userSecrets.lookup userId with
  | some s => if s = "" then none else some s
  | none => none

/-- Embedding of `GET /api/users`: map the upstream user-id list to
`{ userId, userSecret: userSecrets.get(userId) || null }`. -/
def getUsersHandler (st : BackendState) (upstreamUsers : List String) :
    List (String × Option String) :=
  upstreamUsers.map (fun userId => (userId, secretOrNull st userId))

/-! Helper lemmas. -/

/-- Soundness of the ascending scan: a returned port is free, lies in
the scanned window, and every smaller port of the window is occupied. -/
theorem scanRangeAux_spec (free : Nat → Bool) :
    ∀ fuel start p, scanRangeAux free start fuel = some p →
      free p = true ∧ start ≤ p ∧ p < start + fuel ∧
      ∀ q, start ≤ q → q < p → free q = false := by
  intro fuel
  induction fuel with
  | zero => intro start p h; simp [scanRangeAux] at h
  | succ n ih =>
    intro start p h
    simp only [scanRangeAux] at h
    by_cases hf : free start = true
    · rw [if_pos hf] at h
      injection h with h
      subst h
      exact ⟨hf, Nat.le_refl _, by omega, fun q hq1 hq2 => absurd hq2 (by omega)⟩
    · rw [if_neg hf] at h
      have ih2 := ih (start + 1) p h
      refine ⟨ih2.1, by omega, by omega, ?_⟩
      intro q hq1 hq2
      by_cases hqs : q = start
      · subst hqs
        exact Bool.eq_false_iff.mpr hf
      · exact ih2.2.2.2 q (by omega) hq2

/-- Soundness of the bounded scan over the closed interval
`[start, stop]`. -/
theorem scanRange_spec (free : Nat → Bool) (start stop p : Nat)
    (h : scanRange free start stop = some p) :
    free p = true ∧ start ≤ p ∧ p ≤ stop ∧
    ∀ q, start ≤ q → q < p → free q = false := by
  have h2 := scanRangeAux_spec free (stop + 1 - start) start p h
  exact ⟨h2.1, h2.2.1, by omega, h2.2.2.2⟩

/-! Claim C1. -/

/-- C1: every successful `findFreePorts` call returns distinct
`backendPort` and `frontendPort`, under the fixed free/occupied model of
one call.  On a frontend/backend collision the re-scan starts at
`backendPort + 1`, so its result is strictly above the backend port. -/
theorem findFreePorts_distinct (free : Nat → Bool) (options : PortOptions)
    (pa : PortAssignment) (h : findFreePorts free options = some pa) :
    pa.backendPort ≠ pa.frontendPort := by
  unfold findFreePorts at h
  cases hb : findFreePort free options.preferredBackendPort
      (some options.backendRangeStart) (some options.backendRangeEnd) with
  | none => simp [hb] at h
  | some b =>
    simp only [hb] at h
    cases hf : findFreePort free options.preferredFrontendPort
        (some options.frontendRangeStart) (some options.frontendRangeEnd) with
    | none => simp [hf] at h
    | some f0 =>
      simp only [hf] at h
      by_cases hcol : f0 = b
      · rw [if_pos hcol] at h
        cases hr : findFreePort free none
            (some (max options.frontendRangeStart (b + 1)))
            (some options.frontendRangeEnd) with
        | none => simp [hr] at h
        | some f1 =>
          simp only [hr] at h
          injection h with h
          subst h
          have hspec := scanRange_spec free
            (max options.frontendRangeStart (b + 1))
            options.frontendRangeEnd f1 hr
          show b ≠ f1
          have : b + 1 ≤ f1 := le_trans (le_max_right _ _) hspec.2.1
          omega
      · rw [if_neg hcol] at h
        injection h with h
        subst h
        exact fun hbf => hcol hbf.symm

/-- C1 witness: with every port free, the defaults allocate
backend 3005 and frontend 3000, which are distinct. -/
theorem findFreePorts_distinct_witness :
    findFreePorts (fun _ => true) {} = some ⟨3005, 3000⟩ ∧
    (3005 : Nat) ≠ 3000 :=
  ⟨by decide, findFreePorts_distinct (fun _ => true) {} ⟨3005, 3000⟩ (by decide)⟩

/-! Claim C6. -/

/-- C6: when the preferred port of a role is occupied, the allocator
scans that role's range in ascending order and returns the lowest free
port at or above the range start, excluding the companion port already
chosen (the backend role has no companion yet; the frontend role
excludes the backend port via the post-collision re-scan from
`backendPort + 1`). -/
theorem findFreePorts_lowest_free (free : Nat → Bool) (options : PortOptions)
    (b f : Nat) (h : findFreePorts free options = some ⟨b, f⟩) :
    (∀ pb, options.preferredBackendPort = some pb → free pb = false →
      free b = true ∧ options.backendRangeStart ≤ b ∧
      b ≤ options.backendRangeEnd ∧
      ∀ q, options.backendRangeStart ≤ q → q < b → free q = false) ∧
    (∀ pf, options.preferredFrontendPort = some pf → free pf = false →
      free f = true ∧ options.frontendRangeStart ≤ f ∧
      f ≤ options.frontendRangeEnd ∧ f ≠ b ∧
      ∀ q, options.frontendRangeStart ≤ q → q < f → q ≠ b →
        free q = false) := by
  unfold findFreePorts at h
  cases hb : findFreePort free options.preferredBackendPort
      (some options.backendRangeStart) (some options.backendRangeEnd) with
  | none => simp [hb] at h
  | some b0 =>
    simp only [hb] at h
    cases hf : findFreePort free options.preferredFrontendPort
        (some options.frontendRangeStart) (some options.frontendRangeEnd) with
    | none => simp [hf] at h
    | some f0 =>
      simp only [hf] at h
      constructor
      · intro pb hpb hpbfree
        rw [hpb] at hb
        simp only [findFreePort, hpbfree, Option.getD_some] at hb
        rw [if_neg (by simp [hpbfree])] at hb
        have hbb : b0 = b := by
          by_cases hcol : f0 = b0
          · rw [if_pos hcol] at h
            cases hr : findFreePort free none
                (some (max options.frontendRangeStart (b0 + 1)))
                (some options.frontendRangeEnd) with
            | none => simp [hr] at h
            | some f1 =>
              simp only [hr] at h
              injection h with h
              exact congrArg PortAssignment.backendPort h
          · rw [if_neg hcol] at h
            injection h with h
            exact congrArg PortAssignment.backendPort h
        rw [hbb] at hb
        exact scanRange_spec free options.backendRangeStart
          options.backendRangeEnd b hb
      · intro pf hpf hpffree
        rw [hpf] at hf
        simp only [findFreePort, hpffree, Option.getD_some] at hf
        rw [if_neg (by simp [hpffree])] at hf
        have hf0 := scanRange_spec free options.frontendRangeStart
          options.frontendRangeEnd f0 hf
        by_cases hcol : f0 = b0
        · rw [if_pos hcol] at h
          cases hr : findFreePort free none
              (some (max options.frontendRangeStart (b0 + 1)))
              (some options.frontendRangeEnd) with
          | none => simp [hr] at h
          | some f1 =>
            simp only [hr] at h
            injection h with h
            have hbb : b0 = b := congrArg PortAssignment.backendPort h
            have hff : f1 = f := congrArg PortAssignment.frontendPort h
            rw [hcol, hbb] at hf0
            have hr2 := scanRange_spec free
              (max options.frontendRangeStart (b0 + 1))
              options.frontendRangeEnd f1 hr
            rw [hbb, hff] at hr2
            refine ⟨hr2.1, le_trans (le_max_left _ _) hr2.2.1, hr2.2.2.1,
              ?_, ?_⟩
            · have hb1 : b + 1 ≤ f := le_trans (le_max_right _ _) hr2.2.1
              omega
            · intro q hq1 hq2 hq3
              rcases Nat.lt_trichotomy q b with hlt | heq | hgt
              · exact hf0.2.2.2 q hq1 hlt
              · exact absurd heq hq3
              · exact hr2.2.2.2 q (by omega) hq2
        · rw [if_neg hcol] at h
          injection h with h
          have hbb : b0 = b := congrArg PortAssignment.backendPort h
          have hff : f0 = f := congrArg PortAssignment.frontendPort h
          rw [hff] at hf0
          rw [hff, hbb] at hcol
          exact ⟨hf0.1, hf0.2.1, hf0.2.2.1, hcol,
            fun q hq1 hq2 _ => hf0.2.2.2 q hq1 hq2⟩

/-- C6 witness: with 3005 and 3000 occupied and every other port free,
the backend scan lands on 3001, the frontend scan collides with it, and
the re-scan returns 3002 — the lowest free frontend port at or above
3000 other than the backend port 3001. -/
theorem findFreePorts_lowest_free_witness :
    findFreePorts (fun p => !(p == 3005) && !(p == 3000)) {} =
      some ⟨3001, 3002⟩ ∧
    ((fun p => !(p == 3005) && !(p == 3000)) 3002 = true ∧
      ({} : PortOptions).frontendRangeStart ≤ 3002 ∧
      3002 ≤ ({} : PortOptions).frontendRangeEnd ∧ 3002 ≠ 3001 ∧
      ∀ q, ({} : PortOptions).frontendRangeStart ≤ q → q < 3002 →
        q ≠ 3001 → (fun p => !(p == 3005) && !(p == 3000)) q = false) :=
  ⟨by decide,
   (findFreePorts_lowest_free (fun p => !(p == 3005) && !(p == 3000)) {}
       3001 3002 (by decide)).2 3000 rfl (by decide)⟩

/-! Claim C9. -/

/-- C9: ticker extraction on `{symbol: {symbol: {symbol: "TSLA"}}}`
returns `"TSLA"`: the candidate path `position.symbol.symbol` resolves
to the structured value `{symbol: "TSLA"}`, and the secondary nested
lookup (symbol, ticker, code, name, id — in that order) yields the
string. -/
theorem formatTicker_triple_nested :
    formatTicker (JSVal.obj [("symbol", JSVal.obj
      [("symbol", JSVal.obj [("symbol", JSVal.str "TSLA")])])]) = "TSLA" :=
  rfl

/-! Claim C4. -/

/-- C4 counterexample: on input `null` the source returns the two-field
object `{accounts: [], positions: []}` with no `raw` property, so the
result's `raw` field is `undefined`, not the original input `null` —
refuting the claim that for every input the `raw` field is the original
input. -/
theorem normalize_null_raw_counterexample :
    (normalizeHoldingsResponse JSVal.null).raw ≠ JSVal.null :=
  fun h => JSVal.noConfusion h

/-- C4 amended: `normalizeHoldingsResponse` is total and its `positions`
field is always a sequence; for truthy input the `raw` field is the
original input; for falsy input (null, undefined, false, 0, empty
string) the result is `{accounts: [], positions: []}` with no `raw`
property (modelled as `raw = undefined`); the `accounts` field is the
`accounts || brokerageAccounts || []` chain and so is a sequence only
when neither field holds a truthy non-sequence; on input `{}` the result
is `{accounts: [], positions: [], raw: {}}`. -/
theorem normalize_total_and_raw (x : JSVal) :
    isArray (normalizeHoldingsResponse x).positions = true ∧
    (truthy x = true → (normalizeHoldingsResponse x).raw = x) ∧
    (truthy x = false →
      normalizeHoldingsResponse x =
        ⟨JSVal.arr [], JSVal.arr [], JSVal.undefined⟩) ∧
    (truthy x = true →
      (normalizeHoldingsResponse x).accounts =
        jsOr (getField x "accounts")
          (jsOr (getField x "brokerageAccounts") (JSVal.arr []))) ∧
    normalizeHoldingsResponse (JSVal.obj []) =
      ⟨JSVal.arr [], JSVal.arr [], JSVal.obj []⟩ := by
  refine ⟨?_, ?_, ?_, ?_, rfl⟩
  · cases htx : truthy x with
    | false => simp [normalizeHoldingsResponse, htx, isArray]
    | true =>
      simp only [normalizeHoldingsResponse, htx, if_true]
      split
      · rename_i hh
        exact hh
      · rfl
  · intro htx
    simp [normalizeHoldingsResponse, htx]
  · intro htx
    simp [normalizeHoldingsResponse, htx]
  · intro htx
    simp [normalizeHoldingsResponse, htx]

/-- C4 witness: application at the truthy input `{}`. -/
theorem normalize_total_and_raw_witness :
    truthy (JSVal.obj []) = true ∧
    (normalizeHoldingsResponse (JSVal.obj [])).raw = JSVal.obj [] :=
  ⟨rfl, (normalize_total_and_raw (JSVal.obj [])).2.1 rfl⟩

/-! Claim C5. -/

/-- C5 counterexample: on the payload
`{data: {positions: [1]}, holdings: [2]}` both the flat `holdings`
array and the `data`-wrapped `positions` array are present, and the
source resolves positions to the `data`-wrapped candidate `[1]`, not
the flat field `[2]` — refuting the claimed flat-fields-first order. -/
theorem normalize_nested_first_counterexample :
    (normalizeHoldingsResponse (JSVal.obj
      [("data", JSVal.obj [("positions", JSVal.arr [JSVal.num 1])]),
       ("holdings", JSVal.arr [JSVal.num 2])])).positions =
      JSVal.arr [JSVal.num 1] ∧
    getField (JSVal.obj
      [("data", JSVal.obj [("positions", JSVal.arr [JSVal.num 1])]),
       ("holdings", JSVal.arr [JSVal.num 2])]) "holdings" =
      JSVal.arr [JSVal.num 2] ∧
    JSVal.arr [JSVal.num 1] ≠ JSVal.arr [JSVal.num 2] :=
  ⟨rfl, rfl, by simp⟩

/-- C5 amended: on truthy payloads the positions resolution takes the
first truthy candidate of the ordered list `positionsCandidates` — the
variants nested under the generic `data` wrapper first
(`data.data.positions`, `data.data.holdings`, `data.data.results`,
`data.data`), the flat fields second (`holdings`, `positions`,
`accountHoldings`, `results`), then the payload itself — and whenever
the resolved value is not an array, positions default to the empty
sequence while the original payload remains accessible as `raw`. -/
theorem normalize_positions_order (x : JSVal) (hx : truthy x = true) :
    (normalizeHoldingsResponse x).positions =
      (if isArray (firstTruthyOr (positionsCandidates x) (JSVal.arr []))
       then firstTruthyOr (positionsCandidates x) (JSVal.arr [])
       else JSVal.arr []) ∧
    (normalizeHoldingsResponse x).raw = x := by
  constructor
  · simp only [normalizeHoldingsResponse, hx, if_true, positionsCandidates,
      firstTruthyOr, jsOr]
  · simp [normalizeHoldingsResponse, hx]

/-- C5 witness: application at `{data: {positions: [1]}}`. -/
theorem normalize_positions_order_witness :
    truthy (JSVal.obj
      [("data", JSVal.obj [("positions", JSVal.arr [JSVal.num 1])])]) =
      true ∧
    (normalizeHoldingsResponse (JSVal.obj
      [("data", JSVal.obj [("positions", JSVal.arr [JSVal.num 1])])])).raw =
      JSVal.obj [("data", JSVal.obj [("positions", JSVal.arr [JSVal.num 1])])] :=
  ⟨rfl,
   (normalize_positions_order (JSVal.obj
     [("data", JSVal.obj [("positions", JSVal.arr [JSVal.num 1])])]) rfl).2⟩

/-! Claim C2. -/

/-- Closed form of the health-wait loop when every probe in the window
fails. -/
theorem waitForBackendAux_allFail (health : Nat → Bool) :
    ∀ fuel i, (∀ j, i ≤ j → j < i + fuel → health j = false) →
      waitForBackendAux health i fuel = (failProbes i fuel, false) := by
  intro fuel
  induction fuel with
  | zero => intro i _h; rfl
  | succ n ih =>
    intro i h
    have hi : health i = false := h i (Nat.le_refl _) (by omega)
    simp only [waitForBackendAux, failProbes, hi, Bool.false_eq_true,
      if_false]
    rw [ih (i + 1) (fun j hj1 hj2 => h j (by omega) (by omega))]

/-- C2: when the backend health probe fails on all 30 attempts, the
supervisor trace is exactly the port cleanups, the backend spawn, the
30 failed probes each followed by a one-second sleep, the fatal notice,
the backend child kill and the process exit with status 1 — and the
frontend child is never spawned. -/
theorem startServices_probe_exhaustion (health : Nat → Bool)
    (ports : PortAssignment) (h : ∀ i, i < 30 → health i = false) :
    startServicesTrace health ports =
      Event.reclaimPort ports.backendPort ::
        Event.reclaimPort ports.frontendPort ::
        Event.spawnChild Role.backend ::
        (failProbes 0 30 ++
          [Event.logFatal, Event.killBackendChild, Event.exitProcess 1]) ∧
    Event.spawnChild Role.frontend ∉ startServicesTrace health ports ∧
    List.count (Event.sleep 1000) (failProbes 0 30) = 30 := by
  have hw : waitForBackendAux health 0 30 = (failProbes 0 30, false) :=
    waitForBackendAux_allFail health 30 0 (fun j _hj1 hj2 => h j (by omega))
  have htr : startServicesTrace health ports =
      Event.reclaimPort ports.backendPort ::
        Event.reclaimPort ports.frontendPort ::
        Event.spawnChild Role.backend ::
        (failProbes 0 30 ++
          [Event.logFatal, Event.killBackendChild, Event.exitProcess 1]) := by
    simp [startServicesTrace, waitForBackendTrace, hw]
  refine ⟨htr, ?_, by decide⟩
  rw [htr]
  intro hmem
  simp only [List.mem_cons] at hmem
  rcases hmem with h1 | h1 | h1 | h1
  · exact Event.noConfusion h1
  · exact Event.noConfusion h1
  · exact absurd (Event.spawnChild.inj h1) (by decide)
  · revert h1
    decide

/-- C2 witness: a health probe that always fails. -/
theorem startServices_probe_exhaustion_witness :
    Event.spawnChild Role.frontend ∉
      startServicesTrace (fun _ => false) ⟨3005, 3000⟩ :=
  (startServices_probe_exhaustion (fun _ => false) ⟨3005, 3000⟩
    (fun _i _hi => rfl)).2.1

/-! Claim C3. -/

/-- Once the latch is set, any number of further shutdown invocations
leave the state unchanged and emit nothing. -/
theorem runShutdowns_latched (isWindows : Bool) :
    ∀ n (st : SupCtx), st.shuttingDown = true →
      runShutdowns isWindows n st = (st, []) := by
  intro n
  induction n with
  | zero => intro st _h; rfl
  | succ m ih =>
    intro st h
    simp only [runShutdowns, shutdownCall, h, if_true]
    rw [ih st h]
    rfl

/-- C3: starting from a run whose latch is clear, any positive number of
shutdown invocations (duplicate SIGINT/SIGTERM deliveries, serialized by
the single-threaded event loop with the latch written before the first
await) performs the teardown exactly once, in the order: terminate both
children (graceful off Windows), the fixed 1.5-second grace wait, port
reclamation against the backend then the frontend port, process exit
with status 0. -/
theorem shutdown_single_teardown (isWindows : Bool) (n : Nat) (st : SupCtx)
    (hn : 1 ≤ n) (h0 : st.shuttingDown = false) :
    (runShutdowns isWindows n st).2 =
      [Event.terminateTree Role.frontend (!isWindows),
       Event.terminateTree Role.backend (!isWindows),
       Event.sleep 1500, Event.reclaimPort st.backendPort,
       Event.reclaimPort st.frontendPort, Event.exitProcess 0] := by
  cases n with
  | zero => omega
  | succ m =>
    simp only [runShutdowns, shutdownCall, h0, Bool.false_eq_true, if_false]
    rw [runShutdowns_latched isWindows m _ rfl]
    simp [teardownEvents]

/-- C3 witness: two shutdown invocations on a fresh POSIX run. -/
theorem shutdown_single_teardown_witness :
    (1 : Nat) ≤ 2 ∧
    (runShutdowns false 2 ⟨false, 3005, 3000⟩).2 =
      [Event.terminateTree Role.frontend true,
       Event.terminateTree Role.backend true,
       Event.sleep 1500, Event.reclaimPort 3005, Event.reclaimPort 3000,
       Event.exitProcess 0] :=
  ⟨by decide, shutdown_single_teardown false 2 ⟨false, 3005, 3000⟩
    (by decide) rfl⟩

/-! Claim C7. -/

/-- C7 counterexample: with two processes holding the port (the lookup
prints PIDs 100 and 200, arriving as two stdout chunks), the POSIX
branch concatenates the trimmed chunks into the single string "100200"
and spawns one kill command with that string as its only PID argument —
it does not send a signal to each of the two process ids (the argument
is neither "100" nor "200"). -/
theorem killProcessOnPort_concat_counterexample :
    (killProcessOnPortRun false 3005
      (LookupRun.finished 0 ["100\n", "200\n"])).killArgs = ["100200"] ∧
    ("100200" : String) ≠ "100" ∧ ("100200" : String) ≠ "200" :=
  ⟨rfl, by decide, by decide⟩

/-- C7 amended: on the POSIX platform family, `killProcessOnPort(port)`
spawns the lookup command; when it reports no listener (non-zero exit
code or empty trimmed output) the call returns immediately with no kill
and no delay; otherwise it spawns a single `kill -9` whose one argument
is the concatenation of the trimmed stdout chunks (equal to the PID when
exactly one process holds the port) and waits the fixed 1-second settle
delay before resolving. -/
theorem killProcessOnPort_posix_behavior (port : Nat) (exitCode : Int)
    (chunks : List String) :
    ((exitCode = 0 ∧ trimChunks chunks ≠ "") →
      killProcessOnPortRun false port (LookupRun.finished exitCode chunks) =
        ⟨[killLogLine (trimChunks chunks) port], [trimChunks chunks],
          1000, true⟩) ∧
    (¬(exitCode = 0 ∧ trimChunks chunks ≠ "") →
      killProcessOnPortRun false port (LookupRun.finished exitCode chunks) =
        ⟨[], [], 0, true⟩) := by
  constructor
  · intro h
    simp only [killProcessOnPortRun, Bool.false_eq_true, if_false]
    rw [if_pos h]
  · intro h
    simp only [killProcessOnPortRun, Bool.false_eq_true, if_false]
    rw [if_neg h]

/-- C7 witness: a single listener with PID 4242. -/
theorem killProcessOnPort_posix_behavior_witness :
    ((0 : Int) = 0 ∧ trimChunks ["4242\n"] ≠ "") ∧
    killProcessOnPortRun false 3005 (LookupRun.finished 0 ["4242\n"]) =
      ⟨[killLogLine (trimChunks ["4242\n"]) 3005], [trimChunks ["4242\n"]],
        1000, true⟩ :=
  ⟨⟨rfl, by decide⟩,
   (killProcessOnPort_posix_behavior 3005 0 ["4242\n"]).1 ⟨rfl, by decide⟩⟩

/-! Claim C8. -/

/-- Every path of the Windows netstat-scanning loop resolves the
promise. -/
theorem winScan_resolved (port : Nat) :
    ∀ lines, (winScan port lines).resolved = true := by
  intro lines
  induction lines with
  | nil => rfl
  | cons line rest ih =>
    simp only [winScan]
    by_cases hc : (lineMatchesPort port line &&
        strContains line "LISTENING") = true
    · rw [if_pos hc]
      by_cases hp : ((lineWords line).getLastD "" != "" &&
          isNumericStr ((lineWords line).getLastD "")) = true
      · rw [if_pos hp]
      · rw [if_neg hp]
        exact ih
    · rw [if_neg hc]
      exact ih

/-- C8 counterexample: when spawning the lookup command fails (the
spawn error path), the promise resolves but nothing is logged — the
error is swallowed silently, refuting the claim that internal errors
are swallowed after logging. -/
theorem killProcessOnPort_silent_error_counterexample :
    (killProcessOnPortRun false 3005 LookupRun.spawnError).resolved = true ∧
    (killProcessOnPortRun false 3005 LookupRun.spawnError).logs = [] :=
  ⟨rfl, rfl⟩

/-- C8 amended: `killProcessOnPort` never fails its caller — the promise
resolves on every path of both platform branches (spawn error, no
matching process, or a kill issued); internal errors are swallowed
silently (the only logging is the "Killing process" notice on the
found-PID path); in particular, reclamation on a port with no listener
(non-zero lookup exit code) returns without error, with no kill, no log
and no delay. -/
theorem killProcessOnPort_always_resolves (isWindows : Bool) (port : Nat)
    (run : LookupRun) (chunks : List String) :
    (killProcessOnPortRun isWindows port run).resolved = true ∧
    killProcessOnPortRun false port (LookupRun.finished 1 chunks) =
      ⟨[], [], 0, true⟩ := by
  constructor
  · cases run with
    | spawnError => rfl
    | finished exitCode cs =>
      cases isWindows with
      | true =>
        simp only [killProcessOnPortRun, if_true]
        exact winScan_resolved port _
      | false =>
        simp only [killProcessOnPortRun, Bool.false_eq_true, if_false]
        split
        · rfl
        · rfl
  · simp only [killProcessOnPortRun, Bool.false_eq_true, if_false]
    rw [if_neg (by simp)]

/-! Claim C10. -/

/-- Looking up a key just set in the map returns the set value. -/
theorem lookup_mapSet_self :
    ∀ (m : List (String × String)) (k v : String),
      (mapSet m k v).lookup k = some v := by
  intro m
  induction m with
  | nil =>
    intro k v
    simp [mapSet, List.lookup]
  | cons kv rest ih =>
    intro k v
    obtain ⟨k1, v1⟩ := kv
    by_cases hk : k1 = k
    · simp [mapSet, hk, List.lookup]
    · simp only [mapSet]
      rw [if_neg hk]
      simp only [List.lookup]
      have hbeq : (k == k1) = false := by
        simp
        exact Ne.symm hk
      rw [hbeq]
      exact ih k v

/-- C10: deleting a user leaves the backend's in-memory secret store
unchanged — after a registration stored a (non-empty) secret for a user
id, a `DELETE /api/users/:userId` of that id (whatever the upstream
result) does not touch `userSecrets`, so a subsequent `GET /api/users`
whose upstream list still contains the id attaches the stored secret to
it. -/
theorem deleteUser_secret_survives (st : BackendState) (uid secret : String)
    (upstream : Except JSVal JSVal) (users : List String)
    (hs : secret ≠ "") (hm : uid ∈ users) :
    ((deleteUserHandler (registerUserHandler st uid secret) uid
        upstream).1).userSecrets =
      (registerUserHandler st uid secret).userSecrets ∧
    (uid, some secret) ∈
      getUsersHandler
        (deleteUserHandler (registerUserHandler st uid secret) uid
          upstream).1 users := by
  have hdel : (deleteUserHandler (registerUserHandler st uid secret) uid
      upstream).1 = registerUserHandler st uid secret := by
    cases upstream with
    | ok _d => rfl
    | error _e => rfl
  constructor
  · rw [hdel]
  · rw [hdel]
    have hlook : (registerUserHandler st uid secret).userSecrets.lookup uid =
        some secret := lookup_mapSet_self st.userSecrets uid secret
    have hval : secretOrNull (registerUserHandler st uid secret) uid =
        some secret := by
      simp [secretOrNull, hlook, hs]
    simp only [getUsersHandler, List.mem_map]
    exact ⟨uid, hm, by rw [hval]⟩

/-- C10 witness: register "u1" with secret "s1", delete "u1", then list
users with "u1" still present upstream. -/
theorem deleteUser_secret_survives_witness :
    ("s1" : String) ≠ "" ∧ "u1" ∈ ["u1"] ∧
    ("u1", some "s1") ∈
      getUsersHandler
        (deleteUserHandler (registerUserHandler ⟨[]⟩ "u1" "s1") "u1"
          (Except.ok JSVal.null)).1 ["u1"] :=
  ⟨by decide, by simp,
   (deleteUser_secret_survives ⟨[]⟩ "u1" "s1" (Except.ok JSVal.null) ["u1"]
     (by decide) (by simp)).2⟩

end SnapTrade
